import Mathlib

set_option maxRecDepth 8192

/-
Verification development for the `Export` subcommand of `src/subcommand.rs`
(0x07C0/ord-export).  The pure pipeline of the export loop is shallowly
embedded: machine bytes and 64-bit lanes are `Nat` with explicit masking,
byte strings are `List Nat`, decoded text is the list of decoded code
points, and the run returns its written CSV rows together with an optional
fatal error (a Rust panic or `expect` failure is modelled as an error
value).  The index collaborator (`Index::get_latest_inscriptions_with_prev_and_next`,
`get_inscription_by_id`, `get_inscription_entry`) and the `Inscription` /
`InscriptionEntry` types live outside `src/` and are modelled from the
spec, as noted on their definitions.
-/

/-! ### SHA3-256 (the `sha3::Sha3_256` digest used at lines 106-108 and 120) -/

/-- Mask for one 64-bit Keccak lane. -/
def mask64 : Nat := 2 ^ 64 - 1

/-- Rotate a 64-bit lane left by `r` bits (for `x < 2^64`, `r ≤ 64`). -/
def rotl64 (x r : Nat) : Nat :=
  Nat.land (Nat.lor (Nat.shiftLeft x (r % 64)) (Nat.shiftRight x (64 - r % 64))) mask64

/-- Lane accessor on the 25-lane Keccak state (index `x + 5*y`). -/
def lane (s : List Nat) (i : Nat) : Nat := s.getD i 0

/-- Keccak rho rotation offsets, indexed by `x + 5*y`: generated by walking
the FIPS 202 sequence `(t+1)(t+2)/2 mod 64` for `t = 0..23` from lane
`(1, 0)`, stepping `(x, y)` to `(y, (2x + 3y) mod 5)`; lane `(0, 0)` keeps
offset 0. -/
def rhoOffsets : List Nat :=
  ((List.range 24).foldl
    (fun acc t =>
      let x := acc.2.1
      let y := acc.2.2
      (acc.1.set (x + 5 * y) ((t + 1) * (t + 2) / 2 % 64), y, (2 * x + 3 * y) % 5))
    (List.replicate 25 0, 1, 0)).1

/-- Keccak-f[1600] round constants. -/
def roundConstants : List Nat :=
  [0x0000000000000001, 0x0000000000008082, 0x800000000000808a, 0x8000000080008000,
   0x000000000000808b, 0x0000000080000001, 0x8000000080008081, 0x8000000000008009,
   0x000000000000008a, 0x0000000000000088, 0x0000000080008009, 0x000000008000000a,
   0x000000008000808b, 0x800000000000008b, 0x8000000000008089, 0x8000000000008003,
   0x8000000000008002, 0x8000000000000080, 0x000000000000800a, 0x800000008000000a,
   0x8000000080008081, 0x8000000000008080, 0x0000000080000001, 0x8000000080008008]

/-- Keccak theta step. -/
def theta (s : List Nat) : List Nat :=
  let c := (List.range 5).map fun x =>
    Nat.xor (lane s x) (Nat.xor (lane s (x + 5))
      (Nat.xor (lane s (x + 10)) (Nat.xor (lane s (x + 15)) (lane s (x + 20)))))
  let d := (List.range 5).map fun x =>
    Nat.xor (c.getD ((x + 4) % 5) 0) (rotl64 (c.getD ((x + 1) % 5) 0) 1)
  (List.range 25).map fun i => Nat.xor (lane s i) (d.getD (i % 5) 0)

/-- Keccak rho and pi steps combined: target `(X, Y)` receives the rotated
lane from `(x, y) = ((X + 3*Y) % 5, X)`. -/
def rhoPi (s : List Nat) : List Nat :=
  (List.range 25).map fun j =>
    let x := (j % 5 + 3 * (j / 5)) % 5
    let y := j % 5
    rotl64 (lane s (x + 5 * y)) (rhoOffsets.getD (x + 5 * y) 0)

/-- Keccak chi step. -/
def chi (s : List Nat) : List Nat :=
  (List.range 25).map fun j =>
    let row := 5 * (j / 5)
    Nat.xor (lane s j)
      (Nat.land (Nat.xor (lane s ((j + 1) % 5 + row)) mask64) (lane s ((j + 2) % 5 + row)))

/-- One Keccak round: theta, rho/pi, chi, then iota with round constant `rc`. -/
def keccakRound (s : List Nat) (rc : Nat) : List Nat :=
  let t := chi (rhoPi (theta s))
  t.set 0 (Nat.xor (lane t 0) rc)

/-- The full Keccak-f[1600] permutation (24 rounds). -/
def keccakF (s : List Nat) : List Nat := roundConstants.foldl keccakRound s

/-- Interpret up to eight bytes as one little-endian 64-bit lane. -/
def bytesToLane (bs : List Nat) : Nat := bs.foldr (fun b acc => b + 256 * acc) 0

/-- Little-endian bytes of one 64-bit lane. -/
def laneToBytes (x : Nat) : List Nat := (List.range 8).map fun i => x / 256 ^ i % 256

/-- Absorb one 136-byte rate block (17 lanes) into the state and permute. -/
def absorbBlock (s : List Nat) (block : List Nat) : List Nat :=
  keccakF ((List.range 25).map fun i =>
    if i < 17 then Nat.xor (lane s i) (bytesToLane ((block.drop (8 * i)).take 8)) else lane s i)

/-- Split a byte list into 136-byte blocks (fuel-driven structural recursion). -/
def chunks136 : Nat → List Nat → List (List Nat)
  | 0, _ => []
  | _, [] => []
  | fuel + 1, bs => bs.take 136 :: chunks136 fuel (bs.drop 136)

/-- SHA3 multi-rate padding: append `0x06`, zero fill, set the top bit of the
final rate byte. -/
def pad101 (msg : List Nat) : List Nat :=
  let r := 136 - msg.length % 136
  if r = 1 then msg ++ [0x86]
  else msg ++ 0x06 :: (List.replicate (r - 2) 0 ++ [0x80])

/-- Squeeze the first 32 bytes (four lanes) out of a Keccak state. -/
def squeeze (s : List Nat) : List Nat :=
  laneToBytes (lane s 0) ++ laneToBytes (lane s 1) ++
    laneToBytes (lane s 2) ++ laneToBytes (lane s 3)

/-- SHA3-256 digest (32 bytes) of a byte string. -/
def sha3_256 (msg : List Nat) : List Nat :=
  squeeze ((chunks136 (pad101 msg).length (pad101 msg)).foldl absorbBlock (List.replicate 25 0))

/-- Lowercase hex digit char code for `n < 16`. -/
def toHexDigit (n : Nat) : Nat := if n < 10 then 48 + n else 87 + n

/-- Lowercase hex rendering of a byte list, two char codes per byte (the
`rustc_serialize` `to_hex` used at line 120). -/
def bytesToHex (bs : List Nat) : List Nat :=
  bs.foldr (fun b acc => toHexDigit (b / 16) :: toHexDigit (b % 16) :: acc) []

/-- The digest column of a row: lowercase hex of the SHA3-256 of the raw body
bytes (lines 106-108 and 120 of `src/subcommand.rs`). -/
def sha3_256_hex (msg : List Nat) : List Nat := bytesToHex (sha3_256 msg)

/-! ### Rust `String::from_utf8_lossy` (line 109) -/

/-- Is `b` a UTF-8 continuation byte? -/
def isCont (b : Nat) : Bool := 128 ≤ b && b ≤ 191

/-- Allowed first continuation byte after the three-byte lead `b`
(mirrors Rust `core::str` validation: `0xE0` needs `A0..BF`, `0xED`
needs `80..9F`, otherwise `80..BF`). -/
def cont3ok (b b1 : Nat) : Bool :=
  if b = 224 then 160 ≤ b1 && b1 ≤ 191
  else if b = 237 then 128 ≤ b1 && b1 ≤ 159
  else isCont b1

/-- Allowed first continuation byte after the four-byte lead `b`
(`0xF0` needs `90..BF`, `0xF4` needs `80..8F`, otherwise `80..BF`). -/
def cont4ok (b b1 : Nat) : Bool :=
  if b = 240 then 144 ≤ b1 && b1 ≤ 191
  else if b = 244 then 128 ≤ b1 && b1 ≤ 143
  else isCont b1

/-- U+FFFD REPLACEMENT CHARACTER. -/
def repChar : Nat := 0xFFFD

/-- Worker for `utf8Lossy`; `fuel` bounds the number of decoding steps and is
instantiated with the byte count, which always suffices because every step
consumes at least one byte.  Replacement follows Rust's maximal-subpart
policy: an ill-formed sequence of `error_len` bytes becomes one U+FFFD, and
a truncated final sequence becomes one U+FFFD. -/
def utf8LossyAux : Nat → List Nat → List Nat
  | 0, _ => []
  | _, [] => []
  | fuel + 1, b :: rest =>
    if b ≤ 127 then b :: utf8LossyAux fuel rest
    else if b < 194 then repChar :: utf8LossyAux fuel rest
    else if b ≤ 223 then
      match rest with
      | [] => [repChar]
      | b1 :: r1 =>
        if isCont b1 then ((b - 192) * 64 + (b1 - 128)) :: utf8LossyAux fuel r1
        else repChar :: utf8LossyAux fuel rest
    else if b ≤ 239 then
      match rest with
      | [] => [repChar]
      | b1 :: r1 =>
        if cont3ok b b1 then
          match r1 with
          | [] => [repChar]
          | b2 :: r2 =>
            if isCont b2 then
              ((b - 224) * 4096 + (b1 - 128) * 64 + (b2 - 128)) :: utf8LossyAux fuel r2
            else repChar :: utf8LossyAux fuel r1
        else repChar :: utf8LossyAux fuel rest
    else if b ≤ 244 then
      match rest with
      | [] => [repChar]
      | b1 :: r1 =>
        if cont4ok b b1 then
          match r1 with
          | [] => [repChar]
          | b2 :: r2 =>
            if isCont b2 then
              match r2 with
              | [] => [repChar]
              | b3 :: r3 =>
                if isCont b3 then
                  ((b - 240) * 262144 + (b1 - 128) * 4096 + (b2 - 128) * 64 + (b3 - 128)) ::
                    utf8LossyAux fuel r3
                else repChar :: utf8LossyAux fuel r2
            else repChar :: utf8LossyAux fuel r1
        else repChar :: utf8LossyAux fuel rest
    else repChar :: utf8LossyAux fuel rest

/-- Code points of `String::from_utf8_lossy` applied to the raw body bytes
(line 109 of `src/subcommand.rs`); the dedup key and `text` column. -/
def utf8Lossy (bs : List Nat) : List Nat := utf8LossyAux bs.length bs

/-! ### chrono timestamp conversion and RFC3339 formatting (lines 114-121) -/

/-- Millisecond timestamp of chrono's `NaiveDateTime::MIN`
(`-262144-01-01T00:00:00`). -/
def chronoMinMillis : Int := -8334632851200000

/-- Millisecond timestamp of chrono's `NaiveDateTime::MAX`
(`262143-12-31T23:59:59.999...`). -/
def chronoMaxMillis : Int := 8210298412799999

/-- Model of chrono `NaiveDateTime::from_timestamp_millis` (line 114): the
resulting datetime, identified by its millisecond timestamp, when the value
is inside chrono's representable year range, and `none` otherwise. -/
def fromTimestampMillis (millis : Int) : Option Int :=
  if chronoMinMillis ≤ millis ∧ millis ≤ chronoMaxMillis then some millis else none

/-- Decimal digit char codes of `n` (worker, fuel-driven). -/
def natDecimalAux : Nat → Nat → List Nat
  | 0, _ => []
  | fuel + 1, n => if n < 10 then [48 + n] else natDecimalAux fuel (n / 10) ++ [48 + n % 10]

/-- Decimal digit char codes of a natural number. -/
def natDecimal (n : Nat) : List Nat := natDecimalAux (n + 1) n

/-- Zero-padded decimal of width `w`. -/
def padNum (w n : Nat) : List Nat :=
  List.replicate (w - (natDecimal n).length) 48 ++ natDecimal n

/-- Proleptic Gregorian `(year, month, day)` of an epoch day count
(days since 1970-01-01, non-negative range). -/
def civilFromDaysNat (days : Nat) : Nat × Nat × Nat :=
  let z := days + 719468
  let era := z / 146097
  let doe := z % 146097
  let yoe := (doe - doe / 1460 + doe / 36524 - doe / 146096) / 365
  let y := yoe + era * 400
  let doy := doe - (365 * yoe + yoe / 4 - yoe / 100)
  let mp := (5 * doy + 2) / 153
  let d := doy - (153 * mp + 2) / 5 + 1
  let m := if mp < 10 then mp + 3 else mp - 9
  (if m ≤ 2 then y + 1 else y, m, d)

/-- chrono `DateTime::<Utc>::to_rfc3339` (line 121) for the whole-second UTC
datetime carried by `millis` (always a multiple of 1000 here, so no
fractional part is printed): `YYYY-MM-DDTHH:MM:SS+00:00` as char codes.
The model covers the non-negative epoch range, which is the range reachable
from the u32 entry timestamps. -/
def rfc3339OfMillis (millis : Int) : List Nat :=
  let total := millis.toNat / 1000
  let days := total / 86400
  let sod := total % 86400
  let ymd := civilFromDaysNat days
  padNum 4 ymd.1 ++ 45 :: (padNum 2 ymd.2.1 ++ 45 :: (padNum 2 ymd.2.2 ++ 84 ::
    (padNum 2 (sod / 3600) ++ 58 :: (padNum 2 (sod / 60 % 60) ++ 58 ::
      (padNum 2 (sod % 60) ++ [43, 48, 48, 58, 48, 48])))))

/-! ### Data model and index collaborator -/

/-- Modelled from the spec: the closed set of media kinds, `Text` plus
non-text kinds (images, binary blobs) that the filter treats identically. -/
inductive Media where
  | text
  | image
  | binary
deriving DecidableEq, Repr

/-- Modelled from the spec: one content record,
`{ media_kind, body : optional byte sequence }` (ord's `Inscription` is not
under `src/`; `data.media()` and `data.body()` are read off these fields). -/
structure Record where
  media : Media
  body : Option (List Nat)
deriving DecidableEq, Repr

/-- Modelled from the spec: the record entry `{ timestamp : integer epoch
seconds }` (ord's `InscriptionEntry.timestamp` is a `u32`). -/
structure Entry where
  timestamp : Nat
deriving DecidableEq, Repr

/-- Modelled from the spec: the read-only index collaborator with its three
consumed operations: `latest_page(count, cursor) -> (ids, older_cursor,
newer_cursor)` where an absent older cursor means no older records remain,
`record_by_id`, and `entry_by_id`.  Record identifiers and cursors are
opaque naturals. -/
structure Index where
  latest_page : Nat → Option Nat → List Nat × Option Nat × Option Nat
  record_by_id : Nat → Option Record
  entry_by_id : Nat → Option Entry

/-! ### The export pipeline (`Subcommand::run`, `Self::Export` arm) -/

/-- One CSV data row: digest hex, RFC3339 timestamp, decoded text, link
(all as char-code lists). -/
structure ExportRow where
  hash : List Nat
  timestamp : List Nat
  text : List Nat
  link : List Nat
deriving DecidableEq, Repr

/-- Mutable state of the export loop: the dedup set `seen` (decoded texts,
most recent first), the data rows written so far, and the progress-bar
position. -/
structure ExportState where
  seen : List (List Nat)
  rows : List ExportRow
  progress : Nat
deriving DecidableEq, Repr

/-- A fatal termination of the run: the `expect` on the empty-index probe
(line 87), the `unwrap` on a missing entry (line 115), the `unwrap` on an
out-of-range datetime (line 117), or exhaustion of the loop fuel. -/
inductive RunError where
  | emptyIndex
  | entryMissing
  | timestampOutOfRange
  | outOfFuel
deriving DecidableEq, Repr

/-- Fixed URL template of line 123, with the record id interpolated. -/
def urlBase : List Nat :=
  ("https://ordinals.com/inscription/".data.map Char.toNat)

/-- The `link` column for record id `insc`. -/
def linkFor (insc : Nat) : List Nat := urlBase ++ natDecimal insc

/-- The header row `hash,timestamp,text,link` written at line 84. -/
def headerRow : List (List Nat) :=
  [[104, 97, 115, 104], [116, 105, 109, 101, 115, 116, 97, 109, 112],
   [116, 101, 120, 116], [108, 105, 110, 107]]

/-- Body of the `for insc in inscs` loop (lines 99-131): fetch record and
entry, filter on `Media::Text` and a present body, hash the raw bytes,
decode, dedup on the decoded text (`continue` on a duplicate skips the
progress increment), convert the entry timestamp, and append a row.  A
panic is returned as a `RunError`. -/
def processInsc (idx : Index) (st : ExportState) (insc : Nat) :
    ExportState × Option RunError :=
  let insc_data := idx.record_by_id insc
  let insc_time := idx.entry_by_id insc
  match insc_data with
  | some data =>
    match data.media with
    | Media.text =>
      match data.body with
      | some body =>
        let hash := sha3_256_hex body
        let text := utf8Lossy body
        if text ∈ st.seen then (st, none)
        else
          match insc_time with
          | none => (st, some RunError.entryMissing)
          | some entry =>
            match fromTimestampMillis ((entry.timestamp : Int) * 1000) with
            | none => (st, some RunError.timestampOutOfRange)
            | some millis =>
              ({ seen := text :: st.seen,
                 rows := st.rows ++ [⟨hash, rfc3339OfMillis millis, text, linkFor insc⟩],
                 progress := st.progress + 1 }, none)
      | none => ({ st with progress := st.progress + 1 }, none)
    | _ => ({ st with progress := st.progress + 1 }, none)
  | none => ({ st with progress := st.progress + 1 }, none)

/-- Process the ids of one page in order, stopping at the first panic. -/
def processList (idx : Index) : ExportState → List Nat → ExportState × Option RunError
  | st, [] => (st, none)
  | st, insc :: rest =>
    match processInsc idx st insc with
    | (st', none) => processList idx st' rest
    | (st', some e) => (st', some e)

/-- The paging loop (lines 93-133): fetch a page of up to 1000 ids at the
cursor, break (without processing the fetched ids) when the older cursor is
absent, otherwise process the page and continue from the returned cursor.
`fuel` bounds the number of iterations. -/
def exportPages (idx : Index) : Nat → Option Nat → ExportState → ExportState × Option RunError
  | 0, _, st => (st, some RunError.outOfFuel)
  | fuel + 1, c, st =>
    match idx.latest_page 1000 c with
    | (inscs, prev, _) =>
      match prev with
      | none => (st, none)
      | some _ =>
        match processList idx st inscs with
        | (st', none) => exportPages idx fuel prev st'
        | (st', some e) => (st', some e)

/-- Outcome of a run: the data rows written (the header precedes them, see
`writtenCsv`), the final progress position, and the fatal error if any. -/
structure RunOutcome where
  rows : List ExportRow
  progress : Nat
  err : Option RunError
deriving DecidableEq, Repr

/-- The `Self::Export` arm of `Subcommand::run` (lines 77-136): write the
header, probe with a size-1 page whose older cursor doubles as the progress
total (`expect` panics when it is absent), then run the paging loop from an
absent cursor with an empty dedup set. -/
def runExport (idx : Index) (fuel : Nat) : RunOutcome :=
  match (idx.latest_page 1 none).2.1 with
  | none => { rows := [], progress := 0, err := some RunError.emptyIndex }
  | some _total =>
    match exportPages idx fuel none { seen := [], rows := [], progress := 0 } with
    | (st, e) => { rows := st.rows, progress := st.progress, err := e }

/-- The CSV rows written by a run, header first; on a fatal error the rows
already produced remain (the buffered writer flushes on unwind). -/
def writtenCsv (o : RunOutcome) : List (List (List Nat)) :=
  headerRow :: o.rows.map fun r => [r.hash, r.timestamp, r.text, r.link]

/-! ### Concrete scenario indexes -/

/-- The bytes of "hello". -/
def helloBytes : List Nat := [104, 101, 108, 108, 111]

/-- The empty starting state of the loop. -/
def st0 : ExportState := { seen := [], rows := [], progress := 0 }

/-- Spec Scenario A: three records newest-first, id3 text "hello" ts=2000,
id2 image, id1 text "hello" ts=1000; a page request of size >= 3 returns
all three ids together with the exhaustion signal (an absent older cursor:
no older records remain). -/
def idxA : Index where
  latest_page := fun count c =>
    match c with
    | none => if 3 ≤ count then ([3, 2, 1], none, none) else ([3], some 2, none)
    | some _ => ([], none, none)
  record_by_id := fun i =>
    if i = 3 then some ⟨Media.text, some helloBytes⟩
    else if i = 2 then some ⟨Media.image, some [0, 1]⟩
    else if i = 1 then some ⟨Media.text, some helloBytes⟩
    else none
  entry_by_id := fun i =>
    if i = 3 then some ⟨2000⟩
    else if i = 2 then some ⟨1500⟩
    else if i = 1 then some ⟨1000⟩
    else none

/-- A two-id page in which id4 duplicates the text of id5, followed by a
final sacrificial page carrying the exhaustion signal. -/
def idxB : Index where
  latest_page := fun _ c =>
    match c with
    | none => ([5, 4], some 0, none)
    | some _ => ([0], none, none)
  record_by_id := fun i =>
    if i = 5 then some ⟨Media.text, some [97]⟩
    else if i = 4 then some ⟨Media.text, some [97]⟩
    else none
  entry_by_id := fun i =>
    if i = 5 then some ⟨100⟩
    else if i = 4 then some ⟨50⟩
    else none

/-- A text record with a present body whose entry lookup returns absent. -/
def idxC : Index where
  latest_page := fun _ c =>
    match c with
    | none => ([7], some 0, none)
    | some _ => ([0], none, none)
  record_by_id := fun i => if i = 7 then some ⟨Media.text, some [120]⟩ else none
  entry_by_id := fun _ => none

/-- A text record whose body is present but empty. -/
def idxD : Index where
  latest_page := fun _ c =>
    match c with
    | none => ([9], some 0, none)
    | some _ => ([0], none, none)
  record_by_id := fun i => if i = 9 then some ⟨Media.text, some []⟩ else none
  entry_by_id := fun i => if i = 9 then some ⟨77⟩ else none

/-- Dedup scenario with a processed page: id6 text "hello" ts=2000, id5
image, id4 text "hello" ts=1000, then a sacrificial final page. -/
def idxE : Index where
  latest_page := fun _ c =>
    match c with
    | none => ([6, 5, 4], some 0, none)
    | some _ => ([0], none, none)
  record_by_id := fun i =>
    if i = 6 then some ⟨Media.text, some helloBytes⟩
    else if i = 5 then some ⟨Media.image, some [0, 1]⟩
    else if i = 4 then some ⟨Media.text, some helloBytes⟩
    else if i = 0 then some ⟨Media.text, some [122]⟩
    else none
  entry_by_id := fun i =>
    if i = 6 then some ⟨2000⟩
    else if i = 5 then some ⟨1500⟩
    else if i = 4 then some ⟨1000⟩
    else if i = 0 then some ⟨10⟩
    else none

/-- Two text records with different raw bytes (`0xFF` vs `0x80`) whose lossy
decodings are both the single replacement character. -/
def idxI : Index where
  latest_page := fun _ c =>
    match c with
    | none => ([9, 8], some 0, none)
    | some _ => ([0], none, none)
  record_by_id := fun i =>
    if i = 9 then some ⟨Media.text, some [255]⟩
    else if i = 8 then some ⟨Media.text, some [128]⟩
    else none
  entry_by_id := fun i =>
    if i = 9 then some ⟨300⟩
    else if i = 8 then some ⟨200⟩
    else none

/-- The empty index: every page is empty with an absent older cursor. -/
def idxEmpty : Index where
  latest_page := fun _ _ => ([], none, none)
  record_by_id := fun _ => none
  entry_by_id := fun _ => none

/-- The row Scenario A and the dedup scenario expect for the newest "hello"
record (id 6 of `idxE`, ts=2000). -/
def rowHello : ExportRow :=
  ⟨sha3_256_hex helloBytes, rfc3339OfMillis 2000000, utf8Lossy helloBytes, linkFor 6⟩

/-- C9 counterpart rows for `idxI`. -/
def rowFF : ExportRow :=
  ⟨sha3_256_hex [255], rfc3339OfMillis 300000, utf8Lossy [255], linkFor 9⟩

/-- Provenance of a data row: it was built, by the accepting branch of the
loop body, from some id whose record is present text with a present body
and whose entry converted to an in-range millisecond timestamp. -/
def rowOk (idx : Index) (r : ExportRow) : Prop :=
  ∃ insc data body entry millis,
    idx.record_by_id insc = some data ∧
    data.media = Media.text ∧
    data.body = some body ∧
    idx.entry_by_id insc = some entry ∧
    fromTimestampMillis ((entry.timestamp : Int) * 1000) = some millis ∧
    r = ⟨sha3_256_hex body, rfc3339OfMillis millis, utf8Lossy body, linkFor insc⟩

/-- Loop-state invariant: written texts are pairwise distinct, every written
text is in the dedup set, and every written row has provenance. -/
def stInv (idx : Index) (st : ExportState) : Prop :=
  (st.rows.map ExportRow.text).Nodup ∧
  (∀ r ∈ st.rows, r.text ∈ st.seen) ∧
  (∀ r ∈ st.rows, rowOk idx r)

theorem processInsc_no_record (idx : Index) (st : ExportState) (insc : Nat)
    (hrec : idx.record_by_id insc = none) :
    processInsc idx st insc = ({ st with progress := st.progress + 1 }, none) := by
  simp [processInsc, hrec]

theorem processInsc_nontext (idx : Index) (st : ExportState) (insc : Nat) (data : Record)
    (hrec : idx.record_by_id insc = some data) (hm : data.media ≠ Media.text) :
    processInsc idx st insc = ({ st with progress := st.progress + 1 }, none) := by
  rcases hmed : data.media
  · exact absurd hmed hm
  · simp [processInsc, hrec, hmed]
  · simp [processInsc, hrec, hmed]

theorem processInsc_no_body (idx : Index) (st : ExportState) (insc : Nat) (data : Record)
    (hrec : idx.record_by_id insc = some data) (hm : data.media = Media.text)
    (hb : data.body = none) :
    processInsc idx st insc = ({ st with progress := st.progress + 1 }, none) := by
  simp [processInsc, hrec, hm, hb]

theorem processInsc_dup (idx : Index) (st : ExportState) (insc : Nat) (data : Record)
    (body : List Nat) (hrec : idx.record_by_id insc = some data)
    (hm : data.media = Media.text) (hb : data.body = some body)
    (hmem : utf8Lossy body ∈ st.seen) :
    processInsc idx st insc = (st, none) := by
  simp [processInsc, hrec, hm, hb, hmem]

theorem processInsc_entry_missing (idx : Index) (st : ExportState) (insc : Nat) (data : Record)
    (body : List Nat) (hrec : idx.record_by_id insc = some data)
    (hm : data.media = Media.text) (hb : data.body = some body)
    (hmem : utf8Lossy body ∉ st.seen) (hent : idx.entry_by_id insc = none) :
    processInsc idx st insc = (st, some RunError.entryMissing) := by
  simp [processInsc, hrec, hm, hb, hmem, hent]

theorem processInsc_ts_bad (idx : Index) (st : ExportState) (insc : Nat) (data : Record)
    (body : List Nat) (entry : Entry) (hrec : idx.record_by_id insc = some data)
    (hm : data.media = Media.text) (hb : data.body = some body)
    (hmem : utf8Lossy body ∉ st.seen) (hent : idx.entry_by_id insc = some entry)
    (hts : fromTimestampMillis ((entry.timestamp : Int) * 1000) = none) :
    processInsc idx st insc = (st, some RunError.timestampOutOfRange) := by
  simp [processInsc, hrec, hm, hb, hmem, hent, hts]

theorem processInsc_row (idx : Index) (st : ExportState) (insc : Nat) (data : Record)
    (body : List Nat) (entry : Entry) (millis : Int)
    (hrec : idx.record_by_id insc = some data) (hm : data.media = Media.text)
    (hb : data.body = some body) (hmem : utf8Lossy body ∉ st.seen)
    (hent : idx.entry_by_id insc = some entry)
    (hts : fromTimestampMillis ((entry.timestamp : Int) * 1000) = some millis) :
    processInsc idx st insc =
      ({ seen := utf8Lossy body :: st.seen,
         rows := st.rows ++
           [⟨sha3_256_hex body, rfc3339OfMillis millis, utf8Lossy body, linkFor insc⟩],
         progress := st.progress + 1 }, none) := by
  simp [processInsc, hrec, hm, hb, hmem, hent, hts]

theorem processInsc_stInv (idx : Index) (st : ExportState) (insc : Nat)
    (h : stInv idx st) : stInv idx (processInsc idx st insc).1 := by
  obtain ⟨h1, h2, h3⟩ := h
  rcases hrec : idx.record_by_id insc with _ | data
  · rw [processInsc_no_record idx st insc hrec]; exact ⟨h1, h2, h3⟩
  · by_cases hm : data.media = Media.text
    · rcases hb : data.body with _ | body
      · rw [processInsc_no_body idx st insc data hrec hm hb]; exact ⟨h1, h2, h3⟩
      · by_cases hmem : utf8Lossy body ∈ st.seen
        · rw [processInsc_dup idx st insc data body hrec hm hb hmem]; exact ⟨h1, h2, h3⟩
        · rcases hent : idx.entry_by_id insc with _ | entry
          · rw [processInsc_entry_missing idx st insc data body hrec hm hb hmem hent]
            exact ⟨h1, h2, h3⟩
          · rcases hts : fromTimestampMillis ((entry.timestamp : Int) * 1000) with _ | millis
            · rw [processInsc_ts_bad idx st insc data body entry hrec hm hb hmem hent hts]
              exact ⟨h1, h2, h3⟩
            · rw [processInsc_row idx st insc data body entry millis hrec hm hb hmem hent hts]
              refine ⟨?_, ?_, ?_⟩
              · simp only [List.map_append, List.map_cons, List.map_nil]
                refine List.Nodup.append h1 (List.nodup_singleton _) ?_
                intro t ht ht'
                have ht'' : t = utf8Lossy body := by simpa using ht'
                rcases List.mem_map.mp ht with ⟨r, hr, hrt⟩
                exact hmem (ht'' ▸ hrt ▸ h2 r hr)
              · intro r hr
                rcases List.mem_append.mp hr with hr | hr
                · exact List.mem_cons_of_mem _ (h2 r hr)
                · simp at hr
                  subst hr
                  exact List.mem_cons_self _ _
              · intro r hr
                rcases List.mem_append.mp hr with hr | hr
                · exact h3 r hr
                · simp at hr
                  subst hr
                  exact ⟨insc, data, body, entry, millis, hrec, hm, hb, hent, hts, rfl⟩
    · rw [processInsc_nontext idx st insc data hrec hm]; exact ⟨h1, h2, h3⟩

theorem processList_stInv (idx : Index) :
    ∀ l st, stInv idx st → stInv idx (processList idx st l).1 := by
  intro l
  induction l with
  | nil => intro st h; simpa [processList] using h
  | cons i rest ih =>
    intro st h
    rcases hpi : processInsc idx st i with ⟨st', e⟩
    have h' : stInv idx st' := by
      have := processInsc_stInv idx st i h
      rwa [hpi] at this
    rcases e with _ | err
    · simpa [processList, hpi] using ih st' h'
    · simpa [processList, hpi] using h'

theorem exportPages_stInv (idx : Index) :
    ∀ fuel c st, stInv idx st → stInv idx (exportPages idx fuel c st).1 := by
  intro fuel
  induction fuel with
  | zero => intro c st h; simpa [exportPages] using h
  | succ n ih =>
    intro c st h
    rcases hpg : idx.latest_page 1000 c with ⟨inscs, prev, nxt⟩
    rcases prev with _ | p
    · simpa [exportPages, hpg] using h
    · rcases hpl : processList idx st inscs with ⟨st', e⟩
      have h' : stInv idx st' := by
        have := processList_stInv idx inscs st h
        rwa [hpl] at this
      rcases e with _ | err
      · simpa [exportPages, hpg, hpl] using ih p st' h'
      · simpa [exportPages, hpg, hpl] using h'

theorem runExport_stInv (idx : Index) (fuel : Nat) :
    ((runExport idx fuel).rows.map ExportRow.text).Nodup ∧
    ∀ r ∈ (runExport idx fuel).rows, rowOk idx r := by
  rcases hp : (idx.latest_page 1 none).2.1 with _ | total
  · simp [runExport, hp]
  · have h0 : stInv idx { seen := [], rows := [], progress := 0 } := by
      refine ⟨List.nodup_nil, ?_, ?_⟩ <;> intro r hr <;> simp at hr
    have h := exportPages_stInv idx fuel none { seen := [], rows := [], progress := 0 } h0
    rcases hE : exportPages idx fuel none { seen := [], rows := [], progress := 0 } with ⟨st, e⟩
    rw [hE] at h
    have : runExport idx fuel = { rows := st.rows, progress := st.progress, err := e } := by
      simp [runExport, hp, hE]
    rw [this]
    exact ⟨h.1, h.2.2⟩

theorem squeeze_length (s : List Nat) : (squeeze s).length = 32 := by
  simp [squeeze, laneToBytes]

theorem sha3_256_length (bs : List Nat) : (sha3_256 bs).length = 32 :=
  squeeze_length _

theorem laneToBytes_lt (x : Nat) : ∀ b ∈ laneToBytes x, b < 256 := by
  intro b hb
  rcases List.mem_map.mp hb with ⟨i, _, rfl⟩
  exact Nat.mod_lt _ (by norm_num)

theorem squeeze_bytes_lt (s : List Nat) : ∀ b ∈ squeeze s, b < 256 := by
  intro b hb
  unfold squeeze at hb
  rcases List.mem_append.mp hb with h | h
  · rcases List.mem_append.mp h with h | h
    · rcases List.mem_append.mp h with h | h <;> exact laneToBytes_lt _ b h
    · exact laneToBytes_lt _ b h
  · exact laneToBytes_lt _ b h

theorem sha3_256_bytes_lt (bs : List Nat) : ∀ b ∈ sha3_256 bs, b < 256 :=
  squeeze_bytes_lt _

theorem bytesToHex_nil : bytesToHex [] = [] := rfl

theorem bytesToHex_cons (b : Nat) (rest : List Nat) :
    bytesToHex (b :: rest) = toHexDigit (b / 16) :: toHexDigit (b % 16) :: bytesToHex rest := rfl

theorem bytesToHex_length (bs : List Nat) : (bytesToHex bs).length = 2 * bs.length := by
  induction bs with
  | nil => rfl
  | cons b rest ih => rw [bytesToHex_cons]; simp [ih]; omega

theorem toHexDigit_range (n : Nat) (h : n < 16) :
    (48 ≤ toHexDigit n ∧ toHexDigit n ≤ 57) ∨ (97 ≤ toHexDigit n ∧ toHexDigit n ≤ 102) := by
  unfold toHexDigit
  split <;> omega

theorem bytesToHex_chars (bs : List Nat) (hb : ∀ b ∈ bs, b < 256) :
    ∀ c ∈ bytesToHex bs, (48 ≤ c ∧ c ≤ 57) ∨ (97 ≤ c ∧ c ≤ 102) := by
  induction bs with
  | nil => intro c hc; simp [bytesToHex_nil] at hc
  | cons b rest ih =>
    intro c hc
    rw [bytesToHex_cons] at hc
    simp only [List.mem_cons] at hc
    rcases hc with rfl | rfl | hc
    · exact toHexDigit_range _ (Nat.div_lt_of_lt_mul (by
        have := hb b (List.mem_cons_self b rest); omega))
    · exact toHexDigit_range _ (Nat.mod_lt _ (by norm_num))
    · exact ih (fun x hx => hb x (List.mem_cons_of_mem _ hx)) c hc

theorem fromTimestampMillis_eq (m m' : Int) (h : fromTimestampMillis m = some m') : m' = m := by
  unfold fromTimestampMillis at h
  split at h
  · exact (Option.some_inj.mp h).symm
  · exact absurd h (by simp)

/-- C1: Scenario A (three records newest-first, id3 text "hello" ts=2000, id2
image, id1 text "hello" ts=1000) where a size-1000 page request returns all
three ids and the exhaustion signal.  The spec expects a header plus exactly
one data row for id3; the loop of `Subcommand::run` instead breaks on the
absent older cursor before processing the fetched ids, so the run ends
without error having written the header row and zero data rows. -/
theorem scenarioA_final_page_dropped :
    idxA.latest_page 1000 none = ([3, 2, 1], none, none) ∧
    writtenCsv (runExport idxA 10) = [headerRow] ∧
    (runExport idxA 10).err = none := by
  exact ⟨by decide, by decide, by decide⟩

/-- C2 counterexample: in `idxB` the only processed page carries two ids
(id5 and id4, both decoding to the text "a"), yet the final progress
position is 1: the `continue` taken for the duplicate id4 skips the
`progress_bar.inc(1)` at the bottom of the loop body, so progress does not
advance by the number of ids in the page. -/
theorem progress_skips_duplicates_cex :
    (idxB.latest_page 1000 none).1.length = 2 ∧
    (runExport idxB 10).err = none ∧
    (runExport idxB 10).progress = 1 ∧
    (runExport idxB 10).progress ≠ (idxB.latest_page 1000 none).1.length := by
  exact ⟨by decide, by decide, by decide, by decide⟩

/-- C2 amended: for every id whose processing does not abort, the progress
position advances by exactly one unless the id is a present text record with
a present body whose decoded text is already in the dedup set; such a
duplicate takes the `continue` and leaves the progress position unchanged
(filtered-out and missing ids do count). -/
theorem progress_increment_iff_not_duplicate (idx : Index) (st : ExportState) (insc : Nat)
    (h : (processInsc idx st insc).2 = none) :
    (processInsc idx st insc).1.progress = st.progress + 1 ↔
      ¬ ∃ data body, idx.record_by_id insc = some data ∧ data.media = Media.text ∧
          data.body = some body ∧ utf8Lossy body ∈ st.seen := by
  rcases hrec : idx.record_by_id insc with _ | data
  · rw [processInsc_no_record idx st insc hrec]
    simp [hrec]
  · by_cases hm : data.media = Media.text
    · rcases hb : data.body with _ | body
      · rw [processInsc_no_body idx st insc data hrec hm hb]
        simp [hrec, hb]
      · by_cases hmem : utf8Lossy body ∈ st.seen
        · rw [processInsc_dup idx st insc data body hrec hm hb hmem]
          simp only [not_exists]
          constructor
          · intro habs
            omega
          · intro habs
            exact absurd ⟨rfl, hm, hb, hmem⟩ (habs data body)
        · rcases hent : idx.entry_by_id insc with _ | entry
          · rw [processInsc_entry_missing idx st insc data body hrec hm hb hmem hent] at h
            simp at h
          · rcases hts : fromTimestampMillis ((entry.timestamp : Int) * 1000) with _ | millis
            · rw [processInsc_ts_bad idx st insc data body entry hrec hm hb hmem hent hts] at h
              simp at h
            · rw [processInsc_row idx st insc data body entry millis hrec hm hb hmem hent hts]
              simp only [true_iff]
              rintro ⟨data', body', hrec', hm', hb', hmem'⟩
              injection hrec' with hd
              subst hd
              rw [hb] at hb'
              injection hb' with hbd
              subst hbd
              exact hmem hmem'
    · rw [processInsc_nontext idx st insc data hrec hm]
      simp only [true_iff]
      rintro ⟨data', body', hrec', hm', hb', hmem'⟩
      injection hrec' with hd
      subst hd
      exact hm hm'

/-- Witness for the C2 amended theorem at a concrete duplicate id. -/
theorem progress_increment_witness :
    (processInsc idxB { seen := [[97]], rows := [], progress := 0 } 4).2 = none ∧
    ((processInsc idxB { seen := [[97]], rows := [], progress := 0 } 4).1.progress = 0 + 1 ↔
      ¬ ∃ data body, idxB.record_by_id 4 = some data ∧ data.media = Media.text ∧
          data.body = some body ∧
          utf8Lossy body ∈ ({ seen := [[97]], rows := [], progress := 0 } : ExportState).seen) :=
  ⟨by decide,
   progress_increment_iff_not_duplicate idxB { seen := [[97]], rows := [], progress := 0 } 4
     (by decide)⟩

/-- C3 counterexample: in `idxC`, id7 is a text record with a present body
whose entry lookup returns absent; the claim says the id is skipped
silently, but the `insc_time.unwrap()` of line 115 aborts the run. -/
theorem missing_entry_aborts_cex :
    idxC.record_by_id 7 = some ⟨Media.text, some [120]⟩ ∧
    idxC.entry_by_id 7 = none ∧
    (runExport idxC 10).err = some RunError.entryMissing := by
  exact ⟨by decide, by decide, by decide⟩

/-- C3 amended: an id whose record lookup returns absent is skipped silently
and still counts as scanned; but an id whose record is present text with a
present, not-yet-seen body and whose entry lookup returns absent aborts the
run (the unwrap panics) instead of being skipped. -/
theorem missing_lookup_handling :
    (∀ idx st insc, idx.record_by_id insc = none →
       processInsc idx st insc = ({ st with progress := st.progress + 1 }, none)) ∧
    (∀ idx st insc data body, idx.record_by_id insc = some data →
       data.media = Media.text → data.body = some body → utf8Lossy body ∉ st.seen →
       idx.entry_by_id insc = none →
       processInsc idx st insc = (st, some RunError.entryMissing)) :=
  ⟨fun idx st insc h => processInsc_no_record idx st insc h,
   fun idx st insc data body h1 h2 h3 h4 h5 =>
     processInsc_entry_missing idx st insc data body h1 h2 h3 h4 h5⟩

/-- Witness for the C3 amended theorem. -/
theorem missing_lookup_handling_witness :
    processInsc idxC st0 42 = ({ st0 with progress := st0.progress + 1 }, none) ∧
    processInsc idxC st0 7 = (st0, some RunError.entryMissing) :=
  ⟨missing_lookup_handling.1 idxC st0 42 (by decide),
   missing_lookup_handling.2 idxC st0 7 ⟨Media.text, some [120]⟩ [120] (by decide) rfl rfl
     (by decide) (by decide)⟩

/-- C4 counterexample: in `idxD`, id9 is a text record whose body is present
but empty; the claim says no row is produced, but the run emits one data row
(digest of the empty byte string, empty text). -/
theorem empty_body_emits_row_cex :
    idxD.record_by_id 9 = some ⟨Media.text, some []⟩ ∧
    (runExport idxD 10).err = none ∧
    (runExport idxD 10).rows = [⟨sha3_256_hex [], rfc3339OfMillis 77000, [], linkFor 9⟩] ∧
    (runExport idxD 10).rows ≠ [] := by
  exact ⟨by decide, by decide, by decide, by decide⟩

/-- C4 amended: the filter rejects a scanned record (no row, no error)
exactly when its media kind is not Text or its body is absent; a Text record
with a present body, even an empty one, passes the filter and (when unseen,
with a present entry and in-range timestamp) produces a row. -/
theorem filter_accepts_iff_text_and_body_present :
    (∀ idx st insc data, idx.record_by_id insc = some data →
       data.media ≠ Media.text ∨ data.body = none →
       processInsc idx st insc = ({ st with progress := st.progress + 1 }, none)) ∧
    (∀ idx st insc data body entry millis, idx.record_by_id insc = some data →
       data.media = Media.text → data.body = some body → utf8Lossy body ∉ st.seen →
       idx.entry_by_id insc = some entry →
       fromTimestampMillis ((entry.timestamp : Int) * 1000) = some millis →
       (processInsc idx st insc).1.rows = st.rows ++
         [⟨sha3_256_hex body, rfc3339OfMillis millis, utf8Lossy body, linkFor insc⟩]) := by
  constructor
  · intro idx st insc data hrec hcase
    rcases hcase with hm | hb
    · exact processInsc_nontext idx st insc data hrec hm
    · by_cases hm : data.media = Media.text
      · exact processInsc_no_body idx st insc data hrec hm hb
      · exact processInsc_nontext idx st insc data hrec hm
  · intro idx st insc data body entry millis h1 h2 h3 h4 h5 h6
    rw [processInsc_row idx st insc data body entry millis h1 h2 h3 h4 h5 h6]

/-- Witness for the C4 amended theorem, instantiated at the present empty
body of `idxD`. -/
theorem filter_accepts_witness :
    (processInsc idxD st0 9).1.rows = st0.rows ++
      [⟨sha3_256_hex [], rfc3339OfMillis 77000, utf8Lossy [], linkFor 9⟩] :=
  filter_accepts_iff_text_and_body_present.2 idxD st0 9 ⟨Media.text, some []⟩ [] ⟨77⟩ 77000
    (by decide) rfl rfl (by decide) (by decide) (by decide)

/-- C5: the decoded text of every emitted row is unique within a run;
duplicate detection keys on the lossily decoded text (a record whose
decoded body is already in the dedup set is dropped with no row and no
error, whatever its hash); and in the dedup scenario `idxE` the single
emitted "hello" row carries the newest id (6) and newest timestamp (2000),
the first occurrence in newest-to-oldest traversal order. -/
theorem dedup_text_unique_first_wins :
    (∀ idx fuel, ((runExport idx fuel).rows.map ExportRow.text).Nodup) ∧
    (∀ idx st insc data body, idx.record_by_id insc = some data →
       data.media = Media.text → data.body = some body → utf8Lossy body ∈ st.seen →
       processInsc idx st insc = (st, none)) ∧
    (runExport idxE 10).rows = [rowHello] := by
  refine ⟨fun idx fuel => (runExport_stInv idx fuel).1,
    fun idx st insc data body h1 h2 h3 h4 => processInsc_dup idx st insc data body h1 h2 h3 h4,
    by decide⟩

/-- Witness for C5: text uniqueness evaluated on the dedup scenario, and
duplicate suppression at the concrete id4 of `idxE`. -/
theorem dedup_text_unique_witness :
    ((runExport idxE 10).rows.map ExportRow.text).Nodup ∧
    processInsc idxE { seen := [utf8Lossy helloBytes], rows := [], progress := 1 } 4 =
      ({ seen := [utf8Lossy helloBytes], rows := [], progress := 1 }, none) :=
  ⟨dedup_text_unique_first_wins.1 idxE 10,
   dedup_text_unique_first_wins.2.1 idxE { seen := [utf8Lossy helloBytes], rows := [], progress := 1 }
     4 ⟨Media.text, some helloBytes⟩ helloBytes (by decide) rfl rfl (by decide)⟩

/-- C6: when the initial size-1 probe page reports an absent older cursor
(empty index), the run terminates with the fatal empty-index error (the
`expect` of line 87) after the header row has been written, with no data
rows in the output. -/
theorem empty_index_error_after_header (idx : Index) (fuel : Nat)
    (h : (idx.latest_page 1 none).2.1 = none) :
    writtenCsv (runExport idx fuel) = [headerRow] ∧
    (runExport idx fuel).err = some RunError.emptyIndex := by
  constructor <;> simp [runExport, writtenCsv, h]

/-- Witness for C6 at the concrete empty index. -/
theorem empty_index_error_witness :
    writtenCsv (runExport idxEmpty 5) = [headerRow] ∧
    (runExport idxEmpty 5).err = some RunError.emptyIndex :=
  empty_index_error_after_header idxEmpty 5 rfl

/-- C7: the content digest is a 256-bit (32-byte) hash of the raw body
bytes, hex-encoded lowercase as exactly 64 characters (digits and lowercase
a-f), and every emitted row's hash column is `sha3_256_hex` of the row's raw
body bytes; being a pure function of those bytes, it is deterministic and
independent of run order, page size, and decoding. -/
theorem digest_hex_lowercase_64_of_raw_bytes :
    (∀ bs, (sha3_256 bs).length = 32 ∧ (sha3_256_hex bs).length = 64 ∧
       ∀ c ∈ sha3_256_hex bs, (48 ≤ c ∧ c ≤ 57) ∨ (97 ≤ c ∧ c ≤ 102)) ∧
    (∀ idx fuel, ∀ r ∈ (runExport idx fuel).rows,
       ∃ insc data body, idx.record_by_id insc = some data ∧ data.body = some body ∧
         data.media = Media.text ∧ r.hash = sha3_256_hex body) := by
  constructor
  · intro bs
    refine ⟨sha3_256_length bs, ?_, bytesToHex_chars _ (sha3_256_bytes_lt bs)⟩
    rw [sha3_256_hex, bytesToHex_length, sha3_256_length]
  · intro idx fuel r hr
    obtain ⟨insc, data, body, entry, millis, h1, h2, h3, h4, h5, h6⟩ :=
      (runExport_stInv idx fuel).2 r hr
    exact ⟨insc, data, body, h1, h3, h2, by rw [h6]⟩

/-- Witness for C7: digest shape evaluated on the bytes of "hello" (whose
digest hex starts with the character code 51) and hash provenance of the
emitted row of `idxE`. -/
theorem digest_hex_witness :
    ((sha3_256 helloBytes).length = 32 ∧ (sha3_256_hex helloBytes).length = 64 ∧
      ((48 ≤ 51 ∧ 51 ≤ 57) ∨ (97 ≤ 51 ∧ 51 ≤ 102))) ∧
    (∃ insc data body, idxE.record_by_id insc = some data ∧ data.body = some body ∧
      data.media = Media.text ∧ rowHello.hash = sha3_256_hex body) :=
  ⟨⟨(digest_hex_lowercase_64_of_raw_bytes.1 helloBytes).1,
    (digest_hex_lowercase_64_of_raw_bytes.1 helloBytes).2.1,
    (digest_hex_lowercase_64_of_raw_bytes.1 helloBytes).2.2 51 (by decide)⟩,
   digest_hex_lowercase_64_of_raw_bytes.2 idxE 10 rowHello (by decide)⟩

/-- C8: every emitted data row consists of the four fields in order: digest
hex of the raw body, the RFC3339 rendering of the entry's epoch-second
timestamp converted to milliseconds (seconds times 1000) before formatting,
the lossily decoded text, and the fixed URL template with the record id
interpolated. -/
theorem row_fields_shape (idx : Index) (fuel : Nat) :
    ∀ r ∈ (runExport idx fuel).rows,
      ∃ insc data body entry millis,
        idx.record_by_id insc = some data ∧ data.media = Media.text ∧
        data.body = some body ∧ idx.entry_by_id insc = some entry ∧
        fromTimestampMillis ((entry.timestamp : Int) * 1000) = some millis ∧
        millis = (entry.timestamp : Int) * 1000 ∧
        [r.hash, r.timestamp, r.text, r.link] =
          [sha3_256_hex body, rfc3339OfMillis millis, utf8Lossy body, linkFor insc] ∧
        r.link = urlBase ++ natDecimal insc := by
  intro r hr
  obtain ⟨insc, data, body, entry, millis, h1, h2, h3, h4, h5, h6⟩ :=
    (runExport_stInv idx fuel).2 r hr
  subst h6
  exact ⟨insc, data, body, entry, millis, h1, h2, h3, h4, h5,
    fromTimestampMillis_eq _ _ h5, rfl, rfl⟩

/-- Witness for C8 at the emitted row of the dedup scenario. -/
theorem row_fields_shape_witness :
    rowHello ∈ (runExport idxE 10).rows ∧
    ∃ insc data body entry millis,
      idxE.record_by_id insc = some data ∧ data.media = Media.text ∧
      data.body = some body ∧ idxE.entry_by_id insc = some entry ∧
      fromTimestampMillis ((entry.timestamp : Int) * 1000) = some millis ∧
      millis = (entry.timestamp : Int) * 1000 ∧
      [rowHello.hash, rowHello.timestamp, rowHello.text, rowHello.link] =
        [sha3_256_hex body, rfc3339OfMillis millis, utf8Lossy body, linkFor insc] ∧
      rowHello.link = urlBase ++ natDecimal insc :=
  ⟨by decide, row_fields_shape idxE 10 rowHello (by decide)⟩

/-- C9: in `idxI` the two text records have different raw bodies (0xFF vs
0x80) with different digests but equal lossy decodings (one replacement
character); only the first-scanned record (id9) produces a row, the later
one is suppressed by dedup although its digest differs, so the digest of
0x80 is absent from the output even though its body was scanned. -/
theorem lossy_collision_suppresses_second_digest :
    utf8Lossy [255] = utf8Lossy [128] ∧ ([255] : List Nat) ≠ [128] ∧
    sha3_256_hex [255] ≠ sha3_256_hex [128] ∧
    (runExport idxI 10).rows = [rowFF] ∧
    sha3_256_hex [128] ∉ (runExport idxI 10).rows.map ExportRow.hash := by
  exact ⟨by decide, by decide, by decide, by decide, by decide⟩

/-- C10: for any entry timestamp that is non-negative and representable in
32 bits, the millisecond conversion `ts as i64 * 1000` stays within the
64-bit signed range and within chrono's datetime range, so the conversion
succeeds and the loop body can never abort with the timestamp-out-of-range
panic under that precondition. -/
theorem timestamp_conversion_no_panic :
    (∀ ts : Nat, ts < 2 ^ 32 →
       (ts : Int) * 1000 ≤ 2 ^ 63 - 1 ∧
       fromTimestampMillis ((ts : Int) * 1000) = some ((ts : Int) * 1000)) ∧
    (∀ idx st insc, (∀ e, idx.entry_by_id insc = some e → e.timestamp < 2 ^ 32) →
       (processInsc idx st insc).2 ≠ some RunError.timestampOutOfRange) := by
  have key : ∀ ts : Nat, ts < 2 ^ 32 →
      fromTimestampMillis ((ts : Int) * 1000) = some ((ts : Int) * 1000) := by
    intro ts h
    unfold fromTimestampMillis
    split
    · rfl
    next hneg =>
      exfalso
      unfold chronoMinMillis chronoMaxMillis at hneg
      omega
  constructor
  · intro ts h
    refine ⟨by omega, key ts h⟩
  · intro idx st insc hts
    rcases hrec : idx.record_by_id insc with _ | data
    · rw [processInsc_no_record idx st insc hrec]; simp
    · by_cases hm : data.media = Media.text
      · rcases hb : data.body with _ | body
        · rw [processInsc_no_body idx st insc data hrec hm hb]; simp
        · by_cases hmem : utf8Lossy body ∈ st.seen
          · rw [processInsc_dup idx st insc data body hrec hm hb hmem]; simp
          · rcases hent : idx.entry_by_id insc with _ | entry
            · rw [processInsc_entry_missing idx st insc data body hrec hm hb hmem hent]
              simp
            · rw [processInsc_row idx st insc data body entry ((entry.timestamp : Int) * 1000)
                hrec hm hb hmem hent (key entry.timestamp (hts entry hent))]
              simp
      · rw [processInsc_nontext idx st insc data hrec hm]; simp

/-- Witness for C10 at the concrete timestamp 2000 and the concrete id 6 of
the dedup scenario. -/
theorem timestamp_conversion_witness :
    (((2000 : Nat) : Int) * 1000 ≤ 2 ^ 63 - 1 ∧
      fromTimestampMillis (((2000 : Nat) : Int) * 1000) = some (((2000 : Nat) : Int) * 1000)) ∧
    (processInsc idxE st0 6).2 ≠ some RunError.timestampOutOfRange :=
  ⟨timestamp_conversion_no_panic.1 2000 (by norm_num),
   timestamp_conversion_no_panic.2 idxE st0 6 (by
     intro e he
     have h6 : idxE.entry_by_id 6 = some ⟨2000⟩ := by decide
     rw [h6] at he
     obtain rfl := Option.some_inj.mp he
     decide)⟩
